import Mathlib

/-!
Verification development for the ChromiumWrapper boundary
(src/Engine/ChromiumEngine.framework/Headers/ChromiumWrapper.h) and the
host-callback dispatch and lifecycle-safety layer its specification
describes.

The header declares the boundary surface: an opaque-handle lifecycle,
fire-and-forget navigation/input/viewport/settings calls, per-event-kind
callback setters, a per-call JS-result callback, and cookie access.  The
first part of this file embeds those declarations as data (types and
signatures, transcribed from the header).  The second part models, from the
specification, the safety layer behind the header: handle registry,
callback slot table, dispatch bridge and teardown coordinator.
-/

namespace ChromiumWrapper

/-- C types appearing in the header's declarations.  `handle` is the
`ChromiumEngineHandle` typedef; the callback typedefs are distinct C types
and appear as parameter types of the boundary functions. -/
inductive CType where
  | void
  | handle
  | constCharPtr
  | charPtr
  | constVoidPtr
  | cInt
  | cFloat
  | cBool
  | cbLoading
  | cbProgress
  | cbURL
  | cbTitle
  | cbNavigation
  | cbRender
  | cbJSResult
  deriving DecidableEq, Repr

/-- One C function declaration: name, return type, parameter types. -/
structure CFunDecl where
  name : String
  ret : CType
  params : List CType
  deriving DecidableEq, Repr

/-- The seven callback typedefs of the header, with their parameter type
lists, transcribed from ChromiumWrapper.h lines 14-20.  Every callback
returns void, so only the parameters are recorded. -/
def callbackTypedefs : List (String × List CType) :=
  [ ("LoadingCallback", [CType.cBool]),
    ("ProgressCallback", [CType.cFloat]),
    ("URLCallback", [CType.constCharPtr]),
    ("TitleCallback", [CType.constCharPtr]),
    ("NavigationCallback", [CType.cBool, CType.cBool]),
    ("RenderCallback", [CType.constVoidPtr, CType.cInt, CType.cInt]),
    ("JSResultCallback", [CType.constCharPtr]) ]

/-- The complete boundary surface of ChromiumWrapper.h (lines 23-59),
transcribed declaration by declaration. -/
def chromiumWrapperAPI : List CFunDecl :=
  [ { name := "chromium_engine_create", ret := CType.handle, params := [] },
    { name := "chromium_engine_destroy", ret := CType.void,
      params := [CType.handle] },
    { name := "chromium_engine_load_url", ret := CType.void,
      params := [CType.handle, CType.constCharPtr] },
    { name := "chromium_engine_go_back", ret := CType.void,
      params := [CType.handle] },
    { name := "chromium_engine_go_forward", ret := CType.void,
      params := [CType.handle] },
    { name := "chromium_engine_reload", ret := CType.void,
      params := [CType.handle] },
    { name := "chromium_engine_stop_loading", ret := CType.void,
      params := [CType.handle] },
    { name := "chromium_engine_execute_javascript", ret := CType.void,
      params := [CType.handle, CType.constCharPtr, CType.cbJSResult] },
    { name := "chromium_engine_send_touch_event", ret := CType.void,
      params := [CType.handle, CType.cInt, CType.cFloat, CType.cFloat] },
    { name := "chromium_engine_send_key_event", ret := CType.void,
      params := [CType.handle, CType.cInt, CType.cBool] },
    { name := "chromium_engine_set_viewport_size", ret := CType.void,
      params := [CType.handle, CType.cInt, CType.cInt] },
    { name := "chromium_engine_set_loading_callback", ret := CType.void,
      params := [CType.handle, CType.cbLoading] },
    { name := "chromium_engine_set_progress_callback", ret := CType.void,
      params := [CType.handle, CType.cbProgress] },
    { name := "chromium_engine_set_url_callback", ret := CType.void,
      params := [CType.handle, CType.cbURL] },
    { name := "chromium_engine_set_title_callback", ret := CType.void,
      params := [CType.handle, CType.cbTitle] },
    { name := "chromium_engine_set_navigation_callback", ret := CType.void,
      params := [CType.handle, CType.cbNavigation] },
    { name := "chromium_engine_set_render_callback", ret := CType.void,
      params := [CType.handle, CType.cbRender] },
    { name := "chromium_engine_set_cookie", ret := CType.void,
      params := [CType.handle, CType.constCharPtr, CType.constCharPtr,
                 CType.constCharPtr] },
    { name := "chromium_engine_get_cookies", ret := CType.void,
      params := [CType.handle, CType.constCharPtr, CType.charPtr,
                 CType.cInt] },
    { name := "chromium_engine_clear_cookies", ret := CType.void,
      params := [CType.handle] },
    { name := "chromium_engine_set_user_agent", ret := CType.void,
      params := [CType.handle, CType.constCharPtr] },
    { name := "chromium_engine_enable_javascript", ret := CType.void,
      params := [CType.handle, CType.cBool] },
    { name := "chromium_engine_enable_images", ret := CType.void,
      params := [CType.handle, CType.cBool] } ]

end ChromiumWrapper

namespace SafetyLayer

/-- Modelled from the spec: the error taxonomy of the safety layer
(spec section 7); the layer's implementation is absent from the sources
(the header declares only the boundary signatures). -/
inductive ErrorKind where
  | InvalidHandle
  | AllocationFailure
  | BufferTooSmall
  | Timeout
  deriving DecidableEq, Repr

/-- Modelled from the spec: the teardown coordinator's per-handle state
machine Live, Draining, Destroyed (spec section 4.4). -/
inductive LifeState where
  | Live
  | Draining
  | Destroyed
  deriving DecidableEq, Repr

/-- Modelled from the spec: the event kinds with a per-handle callback
slot (spec section 3); the JS-result callback is supplied per call, not
registered in a slot. -/
inductive EventKind where
  | loading
  | progress
  | urlChanged
  | titleChanged
  | navigation
  | render
  deriving DecidableEq, Repr

/-- A host callback function pointer, modelled as an opaque identifier. -/
abbrev FnPtr := Nat

/-- Modelled from the spec: the callback slot table, one slot per
event kind, each holding at most one registered function (spec
section 4.2); `none` means unregistered. -/
structure Slots where
  loading : Option FnPtr
  progress : Option FnPtr
  urlChanged : Option FnPtr
  titleChanged : Option FnPtr
  navigation : Option FnPtr
  render : Option FnPtr
  deriving DecidableEq, Repr

/-- Read the slot for an event kind. -/
def Slots.get (s : Slots) : EventKind → Option FnPtr
  | EventKind.loading => s.loading
  | EventKind.progress => s.progress
  | EventKind.urlChanged => s.urlChanged
  | EventKind.titleChanged => s.titleChanged
  | EventKind.navigation => s.navigation
  | EventKind.render => s.render

/-- Overwrite one slot (last write wins). -/
def Slots.set (s : Slots) (k : EventKind) (f : Option FnPtr) : Slots :=
  match k with
  | EventKind.loading => { s with loading := f }
  | EventKind.progress => { s with progress := f }
  | EventKind.urlChanged => { s with urlChanged := f }
  | EventKind.titleChanged => { s with titleChanged := f }
  | EventKind.navigation => { s with navigation := f }
  | EventKind.render => { s with render := f }

/-- The slot table at handle creation: all slots empty. -/
def Slots.empty : Slots :=
  { loading := none, progress := none, urlChanged := none,
    titleChanged := none, navigation := none, render := none }

/-- Modelled from the spec: the payload of an engine-produced event
(spec section 4.3).  The C float payloads (progress value, touch
coordinates) are modelled as opaque integers; a render frame is
identified by an opaque frame identifier with its dimensions. -/
inductive Payload where
  | loading (isLoading : Bool)
  | progress (value : Int)
  | urlChanged (url : String)
  | titleChanged (title : String)
  | navigation (canGoBack canGoForward : Bool)
  | render (frameId width height : Int)
  deriving DecidableEq, Repr

/-- The event kind a payload belongs to. -/
def Payload.kind : Payload → EventKind
  | Payload.loading _ => EventKind.loading
  | Payload.progress _ => EventKind.progress
  | Payload.urlChanged _ => EventKind.urlChanged
  | Payload.titleChanged _ => EventKind.titleChanged
  | Payload.navigation _ _ => EventKind.navigation
  | Payload.render _ _ _ => EventKind.render

/-- Modelled from the spec: the per-handle engine-side state the safety
layer owns: life-cycle state, callback slot table, pending JS
evaluations (request id paired with the callback supplied in that call),
the next fresh request id, and the cookie store (domain to cookie
text). -/
structure EngineState where
  life : LifeState
  slots : Slots
  pending : List (Nat × FnPtr)
  nextReq : Nat
  cookies : List (String × String × String)
  deriving DecidableEq, Repr

/-- A freshly created engine instance: live, empty slots, nothing
pending, empty cookie store. -/
def EngineState.fresh : EngineState :=
  { life := LifeState.Live, slots := Slots.empty, pending := [],
    nextReq := 0, cookies := [] }

/-- Modelled from the spec: the handle registry mapping opaque handles to
engine instances (spec section 4.1).  Destroyed handles stay in the table
as tombstones with `life = Destroyed`, so use-after-destroy is detected
rather than undefined. -/
structure Registry where
  next : Nat
  table : List (Nat × EngineState)
  deriving DecidableEq, Repr

/-- The empty registry. -/
def Registry.empty : Registry := { next := 0, table := [] }

/-- Look up a handle in the registry. -/
def Registry.find (r : Registry) (h : Nat) : Option EngineState :=
  (r.table.find? (fun p => p.1 = h)).map (fun p => p.2)

/-- Replace the engine state stored for a handle. -/
def Registry.put (r : Registry) (h : Nat) (e : EngineState) : Registry :=
  { r with table := r.table.map (fun p => if p.1 = h then (h, e) else p) }

/-- chromium_engine_create: allocate and fully initialise an engine
instance, returning the fresh handle (spec section 4.1). -/
def create (r : Registry) : Registry × Nat :=
  ({ next := r.next + 1, table := (r.next, EngineState.fresh) :: r.table },
   r.next)

/-- The tombstone left in the registry when a handle is destroyed
(spec sections 4.4 and 8: a poisoned marker rather than removal, so
use-after-destroy is detected): the engine instance is released, the
callback slot table cleared, pending evaluations dropped. -/
def EngineState.tombstone (e : EngineState) : EngineState :=
  { life := LifeState.Destroyed, slots := Slots.empty,
    pending := [], nextReq := e.nextReq, cookies := [] }

/-- chromium_engine_execute_javascript on the engine-state level: the
callback supplied in this call is bound to a fresh pending evaluation
(spec section 3, PendingJSEvaluation); delivery happens later, when the
engine reports the evaluation's outcome. -/
def EngineState.executeJS (e : EngineState) (cb : FnPtr) : EngineState :=
  { e with pending := e.pending ++ [(e.nextReq, cb)],
           nextReq := e.nextReq + 1 }

/-- The engine state after a callback registration: the one slot is
overwritten, everything else kept. -/
def EngineState.withSlot (e : EngineState) (k : EventKind)
    (f : Option FnPtr) : EngineState :=
  { e with slots := e.slots.set k f }

/-- chromium_engine_set_cookie on the engine-state level: store the value
under (domain, name), replacing any previous value for that pair. -/
def EngineState.storeCookie (e : EngineState) (domain cname value : String) :
    EngineState :=
  { e with cookies :=
      (domain, cname, value) ::
        e.cookies.filter (fun c => ¬(c.1 = domain ∧ c.2.1 = cname)) }

/-- The cookie text stored for a domain: the domain's name=value pairs
joined with a separator (empty if none). -/
def EngineState.cookieText (e : EngineState) (domain : String) : String :=
  String.intercalate "; "
    ((e.cookies.filter (fun c => c.1 = domain)).map
      (fun c => c.2.1 ++ "=" ++ c.2.2))

/-- The boundary operations of the header that take a handle, with their
arguments; float arguments are modelled as opaque integers. -/
inductive Op where
  | loadUrl (h : Nat) (url : String)
  | goBack (h : Nat)
  | goForward (h : Nat)
  | reload (h : Nat)
  | stopLoading (h : Nat)
  | executeJavascript (h : Nat) (script : String) (cb : FnPtr)
  | sendTouchEvent (h : Nat) (ty : Int) (x y : Int)
  | sendKeyEvent (h : Nat) (keyCode : Int) (isDown : Bool)
  | setViewportSize (h : Nat) (width height : Int)
  | setCallback (h : Nat) (k : EventKind) (f : Option FnPtr)
  | setCookie (h : Nat) (domain name value : String)
  | getCookies (h : Nat) (domain : String) (bufferSize : Nat)
  | clearCookies (h : Nat)
  | setUserAgent (h : Nat) (ua : String)
  | enableJavascript (h : Nat) (enable : Bool)
  | enableImages (h : Nat) (enable : Bool)
  | destroyOp (h : Nat)
  deriving DecidableEq, Repr

/-- The handle an operation targets. -/
def Op.handle : Op → Nat
  | Op.loadUrl h _ => h
  | Op.goBack h => h
  | Op.goForward h => h
  | Op.reload h => h
  | Op.stopLoading h => h
  | Op.executeJavascript h _ _ => h
  | Op.sendTouchEvent h _ _ _ => h
  | Op.sendKeyEvent h _ _ => h
  | Op.setViewportSize h _ _ => h
  | Op.setCallback h _ _ => h
  | Op.setCookie h _ _ _ => h
  | Op.getCookies h _ _ => h
  | Op.clearCookies h => h
  | Op.setUserAgent h _ => h
  | Op.enableJavascript h _ => h
  | Op.enableImages h _ => h
  | Op.destroyOp h => h

/-- Modelled from the spec: the boundary semantics behind the header
(sections 4.1, 4.2, 4.4, 7); the implementation is absent from the
sources.  Every operation is guarded by the handle registry: an unknown
handle, or one observed in Draining or Destroyed, fails with
InvalidHandle and nothing proceeds against the engine instance.  On a
live handle the operation's only registry effect is recorded here;
navigation, input, viewport and settings calls are fire-and-forget
pass-throughs whose effects live inside the wrapped engine, out of this
layer's scope.  The returned list is the synchronous host-callback
invocations the boundary call itself performs: always empty, because all
delivery is asynchronous through the dispatch bridge and registration
has no side effect beyond the store.  chromium_engine_destroy transitions
a live handle Live to Draining, drains (immediate here: per-handle
dispatch is serialised and none is in flight between boundary calls),
then Draining to Destroyed, leaving the tombstone. -/
def step (r : Registry) (op : Op) :
    Except ErrorKind (Registry × List (FnPtr × Payload)) :=
  match r.find op.handle with
  | none => Except.error ErrorKind.InvalidHandle
  | some e =>
    if e.life = LifeState.Live then
      match op with
      | Op.executeJavascript h _ cb =>
          Except.ok (r.put h (e.executeJS cb), [])
      | Op.setCallback h k f =>
          Except.ok (r.put h { e with slots := e.slots.set k f }, [])
      | Op.setCookie h domain cname value =>
          Except.ok (r.put h (e.storeCookie domain cname value), [])
      | Op.clearCookies h =>
          Except.ok (r.put h { e with cookies := [] }, [])
      | Op.destroyOp h =>
          Except.ok (r.put h e.tombstone, [])
      | _ => Except.ok (r, [])
    else Except.error ErrorKind.InvalidHandle

/-- Modelled from the spec: the dispatch bridge's treatment of one
engine-produced event (section 4.3): look up the current slot for the
event's kind and, if non-null, invoke it exactly once with the event's
payload; if no callback is registered the event is dropped. -/
def dispatchEvent (s : Slots) (p : Payload) : Option (FnPtr × Payload) :=
  (s.get p.kind).map (fun f => (f, p))

/-- The dispatch bridge over a stream of engine-produced events, in
production order (the per-handle single-consumer delivery queue of spec
sections 4.3 and 5 delivers in FIFO order). -/
def dispatchAll (s : Slots) (evs : List Payload) : List (FnPtr × Payload) :=
  evs.filterMap (fun p => dispatchEvent s p)

/-- Dispatch of one engine-produced event through the registry: the
bridge drops events for unknown or tearing-down handles and otherwise
consults only the handle's slot table. -/
def handleDispatch (r : Registry) (h : Nat) (p : Payload) :
    Option (FnPtr × Payload) :=
  match r.find h with
  | none => none
  | some e =>
    if e.life = LifeState.Live then dispatchEvent e.slots p else none

/-- Modelled from the spec: the outcome the engine reports for one JS
evaluation — success with a value, or an internal failure (section 7). -/
inductive JSOutcome where
  | success (value : String)
  | engineError (message : String)
  deriving DecidableEq, Repr

/-- The in-band result string delivered to the JS-result callback:
engine failures are encoded as an error-shaped string through the same
callback, never a separate channel (spec section 7). -/
def JSOutcome.resultText : JSOutcome → String
  | JSOutcome.success v => v
  | JSOutcome.engineError m => "Error: " ++ m

/-- Modelled from the spec: delivery of one engine-reported JS outcome
(sections 3 and 4.3): the pending evaluation with this request id,
if any, is resolved — removed from the pending list — and its own
callback is invoked exactly once with the in-band result text; an
unknown request id delivers nothing. -/
def completeJS (e : EngineState) (req : Nat) (out : JSOutcome) :
    EngineState × List (Nat × FnPtr × String) :=
  match e.pending.find? (fun p => p.1 = req) with
  | none => (e, [])
  | some pr =>
    ({ e with pending := e.pending.filter (fun p => ¬(p.1 = req)) },
     [(req, pr.2, out.resultText)])

/-- Run a stream of engine-reported JS completions through the bridge,
accumulating the invocation log in delivery order. -/
def runCompletions (e : EngineState) :
    List (Nat × JSOutcome) → EngineState × List (Nat × FnPtr × String)
  | [] => (e, [])
  | c :: cs =>
    let fst := completeJS e c.1 c.2
    let rest := runCompletions fst.1 cs
    (rest.1, fst.2 ++ rest.2)

/-- Modelled from the spec: the bytes chromium_engine_get_cookies writes
into the caller's buffer of capacity bufferSize
(sections 6 and 8: truncate-and-null-terminate, never overflow): with a
positive capacity, at most bufferSize - 1 text bytes are copied and a
terminating null byte follows them; with capacity 0 nothing is
written. -/
def cookieWriteBytes (stored : List Char) (bufferSize : Nat) : List Char :=
  if bufferSize = 0 then []
  else stored.take (bufferSize - 1) ++ [Char.ofNat 0]

/-- The caller's buffer after a bounded write: positions below the
written length take the written bytes, every other position keeps its
previous content. -/
def writeBuffer (buf : Nat → Char) (written : List Char) : Nat → Char :=
  fun i => if hlt : i < written.length then written.get ⟨i, hlt⟩ else buf i

/-- Modelled from the spec: sequential interleaving of n destroy calls
racing on one handle.  Under the required delivery model the layer
serialises per-handle operations (spec section 5), so a set of
concurrent destroys executes as some sequence; this folds that sequence,
counting destroys that succeeded (each one releasing the engine
instance) and destroys refused with InvalidHandle. -/
def destroyMany (r : Registry) (h : Nat) : Nat → Registry × Nat × Nat
  | 0 => (r, 0, 0)
  | Nat.succ n =>
    match step r (Op.destroyOp h) with
    | Except.ok pr =>
      let rest := destroyMany pr.1 h n
      (rest.1, rest.2.1 + 1, rest.2.2)
    | Except.error _ =>
      let rest := destroyMany r h n
      (rest.1, rest.2.1, rest.2.2 + 1)

/-- A sequence of callback registrations for one event kind, applied in
call order to the slot table (each one a set_X_callback store). -/
def registerSeq (s : Slots) (k : EventKind)
    (regs : List (Option FnPtr)) : Slots :=
  regs.foldl (fun acc f => acc.set k f) s

/-- Replacing the state stored for a key rewrites exactly the first match
an association-list lookup sees. -/
theorem find_map_put_self (l : List (Nat × EngineState)) (h : Nat)
    (e : EngineState)
    (hs : (l.find? (fun p => p.1 = h)).isSome) :
    (l.map (fun p => if p.1 = h then (h, e) else p)).find?
      (fun p => p.1 = h) = some (h, e) := by
  induction l with
  | nil => simp [List.find?] at hs
  | cons a t ih =>
    by_cases hah : a.1 = h
    · rw [List.map_cons, if_pos hah]
      exact List.find?_cons_of_pos _ (by simp)
    · rw [List.map_cons, if_neg hah,
        List.find?_cons_of_neg _ (by simpa using hah)]
      apply ih
      rwa [List.find?_cons_of_neg _ (by simpa using hah)] at hs

/-- Replacing the state stored for one key leaves lookups of every other
key unchanged. -/
theorem find_map_put_other (l : List (Nat × EngineState)) (h h2 : Nat)
    (e : EngineState) (hne : h2 ≠ h) :
    (l.map (fun p => if p.1 = h then (h, e) else p)).find?
      (fun p => p.1 = h2) = l.find? (fun p => p.1 = h2) := by
  induction l with
  | nil => simp
  | cons a t ih =>
    by_cases hah : a.1 = h
    · have hhn : ¬((h : Nat) = h2) := fun hc => hne hc.symm
      have hna2 : ¬(a.1 = h2) := by rw [hah]; exact hhn
      rw [List.map_cons, if_pos hah,
        List.find?_cons_of_neg _ (by simpa using hhn),
        List.find?_cons_of_neg _ (by simpa using hna2)]
      exact ih
    · rw [List.map_cons, if_neg hah]
      by_cases ha2 : a.1 = h2
      · rw [List.find?_cons_of_pos _ (by simpa using ha2),
          List.find?_cons_of_pos _ (by simpa using ha2)]
      · rw [List.find?_cons_of_neg _ (by simpa using ha2),
          List.find?_cons_of_neg _ (by simpa using ha2)]
        exact ih

/-- Updating a handle's engine state makes the registry return the new
state for that handle. -/
theorem Registry.find_put_self (r : Registry) (h : Nat)
    (e e0 : EngineState) (hf : r.find h = some e0) :
    (r.put h e).find h = some e := by
  have hs : (r.table.find? (fun p => p.1 = h)).isSome := by
    unfold Registry.find at hf
    cases hfe : r.table.find? (fun p => p.1 = h) with
    | none => rw [hfe] at hf; simp at hf
    | some p => simp [hfe]
  unfold Registry.find Registry.put
  rw [find_map_put_self r.table h e hs]
  rfl

/-- Updating a handle's engine state leaves every other handle's lookup
unchanged. -/
theorem Registry.find_put_other (r : Registry) (h h2 : Nat)
    (e : EngineState) (hne : h2 ≠ h) :
    (r.put h e).find h2 = r.find h2 := by
  unfold Registry.find Registry.put
  simp only [find_map_put_other r.table h h2 e hne]

/-- Reading the slot just written returns the written value. -/
theorem Slots.get_set_self (s : Slots) (k : EventKind) (f : Option FnPtr) :
    (s.set k f).get k = f := by
  cases k <;> rfl

/-- Writing one slot leaves every other slot unchanged. -/
theorem Slots.get_set_other (s : Slots) (k k2 : EventKind)
    (f : Option FnPtr) (hne : k2 ≠ k) :
    (s.set k f).get k2 = s.get k2 := by
  cases k <;> cases k2 <;> first | rfl | exact absurd rfl hne

/-- An operation whose target handle is unknown to the registry fails
with InvalidHandle. -/
theorem step_unknown (r : Registry) (op : Op)
    (hf : r.find op.handle = none) :
    step r op = Except.error ErrorKind.InvalidHandle := by
  unfold step
  rw [hf]

/-- An operation observed while its target handle is Draining or
Destroyed fails with InvalidHandle. -/
theorem step_not_live (r : Registry) (op : Op) (e : EngineState)
    (hf : r.find op.handle = some e) (hnl : e.life ≠ LifeState.Live) :
    step r op = Except.error ErrorKind.InvalidHandle := by
  unfold step
  rw [hf]
  simp [hnl]

/-- Destroying a live handle succeeds, leaving the tombstone and
performing no synchronous callback invocation. -/
theorem step_destroy_live (r : Registry) (h : Nat) (e : EngineState)
    (hf : r.find h = some e) (hl : e.life = LifeState.Live) :
    step r (Op.destroyOp h) =
      Except.ok (r.put h e.tombstone, ([] : List (FnPtr × Payload))) := by
  unfold step
  rw [show (Op.destroyOp h).handle = h from rfl, hf]
  simp [hl]

/-- The tombstone is not live. -/
theorem tombstone_not_live (e : EngineState) :
    e.tombstone.life ≠ LifeState.Live := by
  unfold EngineState.tombstone
  simp

/-- C1: after a destroy of handle h has returned, every boundary
operation targeting h fails with InvalidHandle (the handle is observed
in the Destroyed state) and does not proceed against the engine
instance: the step relation produces no successor state for it, so no
operation on a destroyed handle takes effect. -/
theorem ops_after_destroy_fail (r r2 : Registry) (h : Nat)
    (hd : step r (Op.destroyOp h) =
      Except.ok (r2, ([] : List (FnPtr × Payload))))
    (op : Op) (hop : op.handle = h) :
    step r2 op = Except.error ErrorKind.InvalidHandle := by
  cases hfe : r.find h with
  | none =>
    rw [step_unknown r (Op.destroyOp h) hfe] at hd
    cases hd
  | some e =>
    by_cases hl : e.life = LifeState.Live
    · rw [step_destroy_live r h e hfe hl] at hd
      have hr2 : r.put h e.tombstone = r2 := by
        injection hd with hd1
        exact congrArg Prod.fst hd1
      have hfind2 : r2.find h = some e.tombstone := by
        rw [← hr2]
        exact Registry.find_put_self r h e.tombstone e hfe
      exact step_not_live r2 op e.tombstone (by rw [hop]; exact hfind2)
        (tombstone_not_live e)
    · rw [step_not_live r (Op.destroyOp h) e hfe hl] at hd
      cases hd

/-- Concrete check of `ops_after_destroy_fail`: in a registry whose only
handle was created and then destroyed, a subsequent load_url on that
handle fails with InvalidHandle. -/
theorem ops_after_destroy_fail_witness :
    step { next := 1,
           table := [(0, { life := LifeState.Destroyed,
                           slots := Slots.empty, pending := [],
                           nextReq := 0, cookies := [] })] }
      (Op.loadUrl 0 "https:\x2f\x2fexample.com") =
      Except.error ErrorKind.InvalidHandle :=
  ops_after_destroy_fail
    { next := 1, table := [(0, EngineState.fresh)] }
    { next := 1,
      table := [(0, { life := LifeState.Destroyed, slots := Slots.empty,
                      pending := [], nextReq := 0, cookies := [] })] }
    0 rfl (Op.loadUrl 0 "https:\x2f\x2fexample.com") rfl

/-- Once a handle's state is not Live, any further sequence of destroy
attempts all fail with InvalidHandle and leave everything unchanged. -/
theorem destroyMany_dead (r : Registry) (h : Nat) (e : EngineState)
    (hf : r.find h = some e) (hnl : e.life ≠ LifeState.Live) :
    ∀ n, destroyMany r h n = (r, 0, n) := by
  intro n
  induction n with
  | zero => rfl
  | succ m ih =>
    unfold destroyMany
    rw [step_not_live r (Op.destroyOp h) e hf hnl]
    simp [ih]

/-- C6: a set of destroy calls racing on one live handle — executed, as
the layer's per-handle serialisation requires, as some sequence of n
destroy attempts — has exactly one call succeed; every other call fails
with InvalidHandle, and the final registry holds the single tombstone,
so the engine instance is released exactly once and never
double-freed. -/
theorem concurrent_destroy_exactly_one (r : Registry) (h : Nat)
    (e : EngineState) (n : Nat)
    (hf : r.find h = some e) (hl : e.life = LifeState.Live)
    (hn : 1 ≤ n) :
    (destroyMany r h n).2.1 = 1 ∧
    (destroyMany r h n).2.2 = n - 1 ∧
    (destroyMany r h n).1 = r.put h e.tombstone := by
  obtain ⟨m, rfl⟩ : ∃ m, n = m + 1 :=
    ⟨n - 1, (Nat.succ_pred_eq_of_pos hn).symm⟩
  have hft : (r.put h e.tombstone).find h = some e.tombstone :=
    Registry.find_put_self r h e.tombstone e hf
  have hdead := destroyMany_dead (r.put h e.tombstone) h e.tombstone hft
    (tombstone_not_live e) m
  unfold destroyMany
  rw [step_destroy_live r h e hf hl]
  simp [hdead]

/-- Concrete check of `concurrent_destroy_exactly_one`: three destroys
racing on the one live handle of a fresh registry — exactly one
succeeds, the other two fail, and the tombstone remains. -/
theorem concurrent_destroy_exactly_one_witness :
    (destroyMany { next := 1, table := [(0, EngineState.fresh)] } 0 3).2.1
      = 1 ∧
    (destroyMany { next := 1, table := [(0, EngineState.fresh)] } 0 3).2.2
      = 3 - 1 ∧
    (destroyMany { next := 1, table := [(0, EngineState.fresh)] } 0 3).1 =
      Registry.put { next := 1, table := [(0, EngineState.fresh)] } 0
        (EngineState.tombstone EngineState.fresh) :=
  concurrent_destroy_exactly_one
    { next := 1, table := [(0, EngineState.fresh)] } 0 EngineState.fresh 3
    (by decide) (by decide) (by decide)

/-- C8: every boundary function except `chromium_engine_create` returns
void, so no synchronous failure can be reported through a return value at
this API surface; the only value-returning channel is create's returned
handle. -/
theorem boundary_returns_void_except_create :
    ((ChromiumWrapper.chromiumWrapperAPI.filter
        (fun f => f.ret ≠ ChromiumWrapper.CType.void)).map
      (fun f => f.name)) = ["chromium_engine_create"] ∧
    (ChromiumWrapper.chromiumWrapperAPI.filter
        (fun f => f.ret ≠ ChromiumWrapper.CType.void)).map
      (fun f => f.ret) = [ChromiumWrapper.CType.handle] := by
  decide

/-- C7: the only state change of a callback-setter call on a live handle
is the store of the function into the (handle, kind) slot: the boundary
step performs no synchronous callback invocation (the invocation list of
the successful step is empty, so neither the new nor any previously
registered function runs), the written slot holds exactly the supplied
value, every other slot and every other component of the handle's state
keep their values, and every other handle is untouched. -/
theorem set_callback_store_only (r : Registry) (h : Nat)
    (e : EngineState) (k : EventKind) (f : Option FnPtr)
    (hf : r.find h = some e) (hl : e.life = LifeState.Live) :
    step r (Op.setCallback h k f) =
      Except.ok (r.put h (e.withSlot k f),
        ([] : List (FnPtr × Payload))) ∧
    (r.put h (e.withSlot k f)).find h = some (e.withSlot k f) ∧
    (e.withSlot k f).slots.get k = f ∧
    (∀ k2, k2 ≠ k → (e.withSlot k f).slots.get k2 = e.slots.get k2) ∧
    (e.withSlot k f).life = e.life ∧
    (e.withSlot k f).pending = e.pending ∧
    (e.withSlot k f).nextReq = e.nextReq ∧
    (e.withSlot k f).cookies = e.cookies ∧
    (∀ h2, h2 ≠ h → (r.put h (e.withSlot k f)).find h2 = r.find h2) := by
  refine ⟨?_, ?_, ?_, ?_, rfl, rfl, rfl, rfl, ?_⟩
  · unfold step
    rw [show (Op.setCallback h k f).handle = h from rfl, hf]
    simp [hl, EngineState.withSlot]
  · exact Registry.find_put_self r h (e.withSlot k f) e hf
  · exact Slots.get_set_self e.slots k f
  · exact fun k2 hk => Slots.get_set_other e.slots k k2 f hk
  · exact fun h2 hh => Registry.find_put_other r h h2 (e.withSlot k f) hh

/-- Concrete check of `set_callback_store_only`: registering a render
callback on the live handle of a fresh registry stores it, invokes
nothing, and touches nothing else. -/
theorem set_callback_store_only_witness :
    (step { next := 1, table := [(0, EngineState.fresh)] }
        (Op.setCallback 0 EventKind.render (some 7)) =
      Except.ok
        (Registry.put { next := 1, table := [(0, EngineState.fresh)] } 0
          (EngineState.withSlot EngineState.fresh EventKind.render
            (some 7)),
         ([] : List (FnPtr × Payload)))) ∧
    ((Registry.put { next := 1, table := [(0, EngineState.fresh)] } 0
        (EngineState.withSlot EngineState.fresh EventKind.render
          (some 7))).find 0 =
      some (EngineState.withSlot EngineState.fresh EventKind.render
        (some 7))) ∧
    ((EngineState.withSlot EngineState.fresh EventKind.render
        (some 7)).slots.get EventKind.render = some 7) ∧
    (∀ k2, k2 ≠ EventKind.render →
      (EngineState.withSlot EngineState.fresh EventKind.render
        (some 7)).slots.get k2 = EngineState.fresh.slots.get k2) ∧
    ((EngineState.withSlot EngineState.fresh EventKind.render
        (some 7)).life = EngineState.fresh.life) ∧
    ((EngineState.withSlot EngineState.fresh EventKind.render
        (some 7)).pending = EngineState.fresh.pending) ∧
    ((EngineState.withSlot EngineState.fresh EventKind.render
        (some 7)).nextReq = EngineState.fresh.nextReq) ∧
    ((EngineState.withSlot EngineState.fresh EventKind.render
        (some 7)).cookies = EngineState.fresh.cookies) ∧
    (∀ h2, h2 ≠ 0 →
      (Registry.put { next := 1, table := [(0, EngineState.fresh)] } 0
        (EngineState.withSlot EngineState.fresh EventKind.render
          (some 7))).find h2 =
      Registry.find { next := 1, table := [(0, EngineState.fresh)] } h2) :=
  set_callback_store_only { next := 1, table := [(0, EngineState.fresh)] }
    0 EngineState.fresh EventKind.render (some 7) rfl rfl

/-- After a non-empty sequence of registrations for one kind, the slot
holds exactly the last registered value. -/
theorem registerSeq_get_last (s : Slots) (k : EventKind)
    (regs : List (Option FnPtr)) (v : Option FnPtr)
    (hlast : regs.getLast? = some v) :
    (registerSeq s k regs).get k = v := by
  induction regs generalizing s with
  | nil => cases hlast
  | cons a t ih =>
    cases t with
    | nil =>
      have hv : a = v := by
        simpa using hlast
      unfold registerSeq
      simp only [List.foldl_cons, List.foldl_nil]
      rw [Slots.get_set_self, hv]
    | cons b t2 =>
      have hlast2 : (b :: t2).getLast? = some v := by
        rwa [List.getLast?_cons_cons] at hlast
      unfold registerSeq at *
      simp only [List.foldl_cons]
      exact ih (s.set k a) hlast2

/-- C3: for every sequence of set_progress_callback calls, the progress
slot afterwards holds exactly the function registered by the most recent
call (one slot, last write wins), and every progress event dispatched
after that sequence is delivered to that function — a stale previously
registered callback is never invoked for those events. -/
theorem progress_callback_last_write_wins (s : Slots)
    (regs : List (Option FnPtr)) (fLast : Option FnPtr)
    (hlast : regs.getLast? = some fLast) (evs : List Payload) :
    (registerSeq s EventKind.progress regs).get EventKind.progress =
      fLast ∧
    ∀ g p,
      (g, p) ∈ dispatchAll (registerSeq s EventKind.progress regs) evs →
      p.kind = EventKind.progress → some g = fLast := by
  have h1 := registerSeq_get_last s EventKind.progress regs fLast hlast
  refine ⟨h1, ?_⟩
  intro g p hmem hk
  rcases List.mem_filterMap.mp hmem with ⟨ev, _, hsome⟩
  unfold dispatchEvent at hsome
  rcases Option.map_eq_some'.mp hsome with ⟨f0, hf0, heq⟩
  have hev : ev = p := congrArg Prod.snd heq
  have hg : f0 = g := congrArg Prod.fst heq
  rw [hev, hk] at hf0
  rw [hg] at hf0
  exact hf0.symm.trans h1

/-- Concrete check of `progress_callback_last_write_wins`: after
registering function 3 and then function 4 for progress, a progress
event goes to 4; the stale 3 receives nothing. -/
theorem progress_callback_last_write_wins_witness :
    (registerSeq Slots.empty EventKind.progress [some 3, some 4]).get
      EventKind.progress = some 4 ∧
    ∀ g p,
      (g, p) ∈ dispatchAll
        (registerSeq Slots.empty EventKind.progress [some 3, some 4])
        [Payload.progress 50, Payload.loading true] →
      p.kind = EventKind.progress → some g = some 4 :=
  progress_callback_last_write_wins Slots.empty [some 3, some 4]
    (some 4) rfl [Payload.progress 50, Payload.loading true]

/-- C4: with a callback registered for an event kind, the dispatch
bridge delivers exactly the engine-produced events of that kind, to that
callback, in exactly the order the engine produced them: no reordering,
no coalescing, no duplication (this model never coalesces, which the
documented progress-coalescing licence permits but does not require). -/
theorem dispatch_in_production_order (s : Slots) (k : EventKind)
    (f : FnPtr) (hreg : s.get k = some f) (evs : List Payload) :
    (dispatchAll s evs).filter (fun inv => inv.2.kind = k) =
      (evs.filter (fun p => p.kind = k)).map (fun p => (f, p)) := by
  induction evs with
  | nil => rfl
  | cons p t ih =>
    by_cases hk : p.kind = k
    · have hde : dispatchEvent s p = some (f, p) := by
        unfold dispatchEvent
        rw [hk, hreg]
        rfl
      rw [show dispatchAll s (p :: t) = (f, p) :: dispatchAll s t from by
        unfold dispatchAll
        rw [List.filterMap_cons, hde]]
      rw [List.filter_cons_of_pos (by simpa using hk),
        List.filter_cons_of_pos (by simpa using hk), List.map_cons]
      exact congrArg (List.cons (f, p)) ih
    · cases hde : dispatchEvent s p with
      | none =>
        rw [show dispatchAll s (p :: t) = dispatchAll s t from by
          unfold dispatchAll
          rw [List.filterMap_cons, hde]]
        rw [List.filter_cons_of_neg (by simpa using hk)]
        exact ih
      | some pr =>
        have hpr2 : pr.2 = p := by
          unfold dispatchEvent at hde
          rcases Option.map_eq_some'.mp hde with ⟨f0, _, heq⟩
          rw [← heq]
        rw [show dispatchAll s (p :: t) = pr :: dispatchAll s t from by
          unfold dispatchAll
          rw [List.filterMap_cons, hde]]
        rw [List.filter_cons_of_neg (by simp [hpr2, hk]),
          List.filter_cons_of_neg (by simpa using hk)]
        exact ih

/-- Concrete check of `dispatch_in_production_order`: with callback 9
registered for loading, an interleaved event stream delivers exactly the
loading events, in production order, to 9. -/
theorem dispatch_in_production_order_witness :
    (dispatchAll
        { Slots.empty with loading := some 9 }
        [Payload.loading true, Payload.progress 10,
         Payload.loading false]).filter
      (fun inv => inv.2.kind = EventKind.loading) =
      (([Payload.loading true, Payload.progress 10,
         Payload.loading false].filter
        (fun p => p.kind = EventKind.loading)).map (fun p => (9, p))) :=
  dispatch_in_production_order { Slots.empty with loading := some 9 }
    EventKind.loading 9 rfl
    [Payload.loading true, Payload.progress 10, Payload.loading false]

/-- With pairwise-distinct request ids, looking up a pending request
finds exactly the entry that registered it. -/
theorem pending_find_unique (l : List (Nat × FnPtr)) (req : Nat)
    (cb : FnPtr) (hmem : (req, cb) ∈ l)
    (hnd : (l.map (fun p => p.1)).Nodup) :
    l.find? (fun p => p.1 = req) = some (req, cb) := by
  induction l with
  | nil => cases hmem
  | cons a t ih =>
    rcases List.mem_cons.mp hmem with ha | ht
    · rw [← ha]
      exact List.find?_cons_of_pos _ (by simp)
    · have hnd1 : (a.1 :: t.map (fun p => p.1)).Nodup := by
        rw [List.map_cons] at hnd
        exact hnd
      have hnd2 := List.nodup_cons.mp hnd1
      have hmap : req ∈ t.map (fun p => p.1) := by
        have := List.mem_map_of_mem (fun p : Nat × FnPtr => p.1) ht
        simpa using this
      have hne : ¬(a.1 = req) := by
        intro hc
        apply hnd2.1
        rw [hc]
        exact hmap
      rw [List.find?_cons_of_neg _ (by simpa using hne)]
      exact ih ht hnd2.2

/-- A completion stream containing no completion for a request produces
no invocation for it. -/
theorem runCompletions_no_req (req : Nat) (cs : List (Nat × JSOutcome))
    (hno : ∀ c ∈ cs, ¬(c.1 = req)) :
    ∀ e : EngineState,
      ((runCompletions e cs).2.filter (fun inv => inv.1 = req)) = [] := by
  induction cs with
  | nil => intro e; rfl
  | cons c t ih =>
    intro e
    have hcr : ¬(c.1 = req) := hno c (List.mem_cons_self c t)
    have hrest : ∀ c2 ∈ t, ¬(c2.1 = req) :=
      fun c2 hc2 => hno c2 (List.mem_cons_of_mem c hc2)
    show (((completeJS e c.1 c.2).2 ++
      (runCompletions (completeJS e c.1 c.2).1 t).2).filter
        (fun inv => inv.1 = req)) = []
    rw [List.filter_append]
    have h1 : (completeJS e c.1 c.2).2.filter
        (fun inv => inv.1 = req) = [] := by
      unfold completeJS
      cases hfind : e.pending.find? (fun p => p.1 = c.1) with
      | none => rfl
      | some pr => simp [hcr]
    rw [h1, List.nil_append]
    exact ih hrest (completeJS e c.1 c.2).1

/-- C2: for a pending JS evaluation — registered by one
execute_javascript call, which bound the callback supplied in that call
to a fresh request id — a completion stream in which the engine reports
that request exactly once produces exactly one invocation of that
callback for the request, at most one and at least one, whatever the
outcome: success, or a failure thrown inside the engine, delivered
in-band as an error-shaped result string through the same callback and
never through a separate channel or by dropping the callback. -/
theorem js_result_exactly_once (e : EngineState) (req : Nat) (cb : FnPtr)
    (out : JSOutcome) (cs : List (Nat × JSOutcome))
    (hmem : (req, cb) ∈ e.pending)
    (hnd : (e.pending.map (fun p => p.1)).Nodup)
    (hcs : cs.filter (fun c => c.1 = req) = [(req, out)]) :
    ((runCompletions e cs).2.filter (fun inv => inv.1 = req)) =
      [(req, cb, out.resultText)] := by
  induction cs generalizing e with
  | nil => cases hcs
  | cons c t ih =>
    by_cases hc1 : c.1 = req
    · rw [List.filter_cons_of_pos (by simpa using hc1)] at hcs
      have hch : c = (req, out) := (List.cons_eq_cons.mp hcs).1
      have hct : t.filter (fun c2 => c2.1 = req) = [] :=
        (List.cons_eq_cons.mp hcs).2
      have hno : ∀ c2 ∈ t, ¬(c2.1 = req) := by
        intro c2 hc2 hcr
        have hin : c2 ∈ t.filter (fun c3 => c3.1 = req) :=
          List.mem_filter.mpr ⟨hc2, by simpa using hcr⟩
        rw [hct] at hin
        cases hin
      have hfind : e.pending.find? (fun p => p.1 = c.1) =
          some (req, cb) := by
        rw [hc1]
        exact pending_find_unique e.pending req cb hmem hnd
      show (((completeJS e c.1 c.2).2 ++
        (runCompletions (completeJS e c.1 c.2).1 t).2).filter
          (fun inv => inv.1 = req)) = [(req, cb, out.resultText)]
      have hcomp : completeJS e c.1 c.2 =
          ({ e with pending :=
              e.pending.filter (fun p => ¬(p.1 = c.1)) },
           [(c.1, cb, c.2.resultText)]) := by
        unfold completeJS
        rw [hfind]
      rw [hcomp, List.filter_append, hch]
      rw [runCompletions_no_req req t hno]
      simp
    · rw [List.filter_cons_of_neg (by simpa using hc1)] at hcs
      show (((completeJS e c.1 c.2).2 ++
        (runCompletions (completeJS e c.1 c.2).1 t).2).filter
          (fun inv => inv.1 = req)) = [(req, cb, out.resultText)]
      rw [List.filter_append]
      cases hfind : e.pending.find? (fun p => p.1 = c.1) with
      | none =>
        have hcomp : completeJS e c.1 c.2 = (e, []) := by
          unfold completeJS
          rw [hfind]
        rw [hcomp]
        simp only [List.filter_nil, List.nil_append]
        exact ih e hmem hnd hcs
      | some pr =>
        have hcomp : completeJS e c.1 c.2 =
            ({ e with pending :=
                e.pending.filter (fun p => ¬(p.1 = c.1)) },
             [(c.1, pr.2, c.2.resultText)]) := by
          unfold completeJS
          rw [hfind]
        rw [hcomp]
        have hdrop : ([(c.1, pr.2, c.2.resultText)]).filter
            (fun inv => inv.1 = req) = [] := by
          simp [hc1]
        rw [hdrop, List.nil_append]
        have hmem2 : (req, cb) ∈
            e.pending.filter (fun p => ¬(p.1 = c.1)) :=
          List.mem_filter.mpr
            ⟨hmem, by simpa using (fun hc => hc1 hc.symm : ¬(req = c.1))⟩
        have hnd2 : ((e.pending.filter
            (fun p => ¬(p.1 = c.1))).map (fun p => p.1)).Nodup :=
          List.Nodup.sublist
            (List.Sublist.map (fun p => p.1)
              (List.filter_sublist e.pending)) hnd
        exact ih _ hmem2 hnd2 hcs

/-- Concrete check of `js_result_exactly_once`: with request 5 bound to
callback 7 and the engine reporting request 5 once, as a thrown error,
exactly one invocation of 7 is observed, carrying the error-shaped
result string. -/
theorem js_result_exactly_once_witness :
    ((runCompletions
        { life := LifeState.Live, slots := Slots.empty,
          pending := [(5, 7)], nextReq := 6, cookies := [] }
        [(3, JSOutcome.success "ok"),
         (5, JSOutcome.engineError "boom")]).2.filter
      (fun inv => inv.1 = 5)) =
      [(5, 7, (JSOutcome.engineError "boom").resultText)] :=
  js_result_exactly_once
    { life := LifeState.Live, slots := Slots.empty,
      pending := [(5, 7)], nextReq := 6, cookies := [] }
    5 7 (JSOutcome.engineError "boom")
    [(3, JSOutcome.success "ok"), (5, JSOutcome.engineError "boom")]
    (by simp) (by simp) (by decide)

/-- C5: a get_cookies call whose buffer is smaller than the stored
cookie text writes exactly bufferSize bytes — a truncated copy of the
stored text followed by a terminating null byte, the copied part being
strictly shorter than the stored text — and no byte is ever written at
or past offset bufferSize of the caller's buffer. -/
theorem get_cookies_truncation_safe (stored : List Char)
    (bufferSize : Nat) (buf : Nat → Char)
    (hpos : 0 < bufferSize) (hsmall : bufferSize ≤ stored.length) :
    (cookieWriteBytes stored bufferSize).length = bufferSize ∧
    cookieWriteBytes stored bufferSize =
      stored.take (bufferSize - 1) ++ [Char.ofNat 0] ∧
    (cookieWriteBytes stored bufferSize).getLast? =
      some (Char.ofNat 0) ∧
    (stored.take (bufferSize - 1)).length < stored.length ∧
    (∀ i, bufferSize ≤ i →
      writeBuffer buf (cookieWriteBytes stored bufferSize) i = buf i) := by
  have hz : ¬(bufferSize = 0) := Nat.pos_iff_ne_zero.mp hpos
  have heq : cookieWriteBytes stored bufferSize =
      stored.take (bufferSize - 1) ++ [Char.ofNat 0] := by
    unfold cookieWriteBytes
    rw [if_neg hz]
  have htk : (stored.take (bufferSize - 1)).length = bufferSize - 1 := by
    rw [List.length_take]
    exact Nat.min_eq_left (le_trans (Nat.sub_le _ _) hsmall)
  have hlen : (cookieWriteBytes stored bufferSize).length = bufferSize := by
    rw [heq, List.length_append, htk, List.length_singleton]
    omega
  refine ⟨hlen, heq, ?_, ?_, ?_⟩
  · rw [heq]
    exact List.getLast?_concat _
  · rw [htk]
    omega
  · intro i hi
    unfold writeBuffer
    exact dif_neg (by rw [hlen]; omega)

/-- Concrete check of `get_cookies_truncation_safe`: a 12-character
stored cookie text read into a 6-byte buffer. -/
theorem get_cookies_truncation_safe_witness :
    (cookieWriteBytes "sid=19;k=ab2".data 6).length = 6 ∧
    cookieWriteBytes "sid=19;k=ab2".data 6 =
      "sid=19;k=ab2".data.take (6 - 1) ++ [Char.ofNat 0] ∧
    (cookieWriteBytes "sid=19;k=ab2".data 6).getLast? =
      some (Char.ofNat 0) ∧
    ("sid=19;k=ab2".data.take (6 - 1)).length <
      "sid=19;k=ab2".data.length ∧
    (∀ i, 6 ≤ i →
      writeBuffer (fun _ => 'x') (cookieWriteBytes "sid=19;k=ab2".data 6)
        i = (fun _ => 'x') i) :=
  get_cookies_truncation_safe "sid=19;k=ab2".data 6 (fun _ => 'x')
    (by decide) (by decide)

/-- C9: the JS-result callback is supplied per invocation, not
registered per handle: the header declares no
chromium_engine_set_js_result_callback setter, the only boundary
function taking a JSResultCallback is chromium_engine_execute_javascript
itself, each execute_javascript call binds its own supplied callback to
its own fresh pending request, and two evaluations in flight together on
one handle deliver to the two different functions passed in their own
calls. -/
theorem js_callback_bound_per_call :
    ((ChromiumWrapper.chromiumWrapperAPI.map (fun f => f.name)).contains
      "chromium_engine_set_js_result_callback") = false ∧
    ((ChromiumWrapper.chromiumWrapperAPI.filter
        (fun f => ChromiumWrapper.CType.cbJSResult ∈ f.params)).map
      (fun f => f.name)) = ["chromium_engine_execute_javascript"] ∧
    (∀ (e : EngineState) (cb1 cb2 : FnPtr),
      ((e.executeJS cb1).executeJS cb2).pending =
        e.pending ++ [(e.nextReq, cb1), (e.nextReq + 1, cb2)]) ∧
    (∀ (cb1 cb2 : FnPtr) (out1 out2 : JSOutcome),
      (runCompletions ((EngineState.fresh.executeJS cb1).executeJS cb2)
        [(0, out1), (1, out2)]).2 =
        [(0, cb1, out1.resultText), (1, cb2, out2.resultText)]) := by
  refine ⟨by decide, by decide, ?_, ?_⟩
  · intro e cb1 cb2
    unfold EngineState.executeJS
    simp
  · intro cb1 cb2 out1 out2
    rfl

/-- C10: no callback typedef of the header carries a handle parameter —
each receives only its event payload — and consequently dispatch is
handle-blind: for any two handles on which the same function is
registered for an event's kind, delivering the same payload produces
identical invocations, indistinguishable to the callee. -/
theorem callbacks_handle_blind :
    (ChromiumWrapper.callbackTypedefs.all
      (fun cb => decide (ChromiumWrapper.CType.handle ∉ cb.2))) = true ∧
    ∀ (r : Registry) (h1 h2 : Nat) (e1 e2 : EngineState) (p : Payload),
      r.find h1 = some e1 → r.find h2 = some e2 →
      e1.life = LifeState.Live → e2.life = LifeState.Live →
      e1.slots.get p.kind = e2.slots.get p.kind →
      handleDispatch r h1 p = handleDispatch r h2 p := by
  refine ⟨by decide, ?_⟩
  intro r h1 h2 e1 e2 p hf1 hf2 hl1 hl2 hs
  unfold handleDispatch
  rw [hf1, hf2]
  simp only [hl1, hl2, if_pos]
  unfold dispatchEvent
  rw [hs]

/-- Concrete check of `callbacks_handle_blind`: two live handles with
the same function 7 registered for progress deliver a progress event
identically. -/
theorem callbacks_handle_blind_witness :
    handleDispatch
      { next := 2,
        table := [(0, { life := LifeState.Live,
                        slots := { Slots.empty with progress := some 7 },
                        pending := [], nextReq := 0, cookies := [] }),
                  (1, { life := LifeState.Live,
                        slots := { Slots.empty with progress := some 7 },
                        pending := [(4, 9)], nextReq := 5,
                        cookies := [] })] }
      0 (Payload.progress 42) =
    handleDispatch
      { next := 2,
        table := [(0, { life := LifeState.Live,
                        slots := { Slots.empty with progress := some 7 },
                        pending := [], nextReq := 0, cookies := [] }),
                  (1, { life := LifeState.Live,
                        slots := { Slots.empty with progress := some 7 },
                        pending := [(4, 9)], nextReq := 5,
                        cookies := [] })] }
      1 (Payload.progress 42) :=
  callbacks_handle_blind.2
    { next := 2,
      table := [(0, { life := LifeState.Live,
                      slots := { Slots.empty with progress := some 7 },
                      pending := [], nextReq := 0, cookies := [] }),
                (1, { life := LifeState.Live,
                      slots := { Slots.empty with progress := some 7 },
                      pending := [(4, 9)], nextReq := 5,
                      cookies := [] })] }
    0 1
    { life := LifeState.Live,
      slots := { Slots.empty with progress := some 7 },
      pending := [], nextReq := 0, cookies := [] }
    { life := LifeState.Live,
      slots := { Slots.empty with progress := some 7 },
      pending := [(4, 9)], nextReq := 5, cookies := [] }
    (Payload.progress 42) rfl rfl rfl rfl rfl
